import Mathlib

/-!
Shallow embedding of the configuration-resolution core of `libstandard`
(`util.go`): metadata extraction over nested structures, the three source
readers (file, environment, flags), the recursive value-coercion engine and
the required-field check, together with theorems about the claims of the
natural-language specification.

Modelling conventions:
* Go's reflected types and values are embedded as the inductive types
  `GoType` / `GoValue` below.  The universe covers the kinds the coercion
  engine handles (string, bool, sized signed/unsigned integers, slice, map)
  plus structs and pointers; float/complex/array/chan/func kinds, and
  custom `Setter` implementations, are outside the modelled universe.
* `reflect.Value` handles held inside a `structMeta` are embedded as a
  field path (list of field indices) into the root `GoValue`, read and
  written with `getField` / `setField`; this models Go's in-place mutation
  through the stored `reflect.Value`.
* `strconv.ParseInt/ParseUint/ParseBool` are modelled after the Go
  standard library (base-0 prefix detection and bit-width range checks);
  underscore digit separators are not modelled.
* Errors are embedded as the inductive `GoErr`, one constructor per
  distinct error shape produced by the Go code.
-/

namespace Libstandard

/-- The struct tags recognized by `readStructMetadata` (`env`, `env-default`,
`flag`, `env-separator`, `env-required`, `env-prefix`).  A tag that is absent
is `none`; `envRequired` records mere presence of the `env-required` tag,
matching `_, required := fType.Tag.Lookup(TagEnvRequired)`. -/
structure FieldTag where
  env : Option String := none
  envDefault : Option String := none
  flagTag : Option String := none
  envSeparator : Option String := none
  envRequired : Bool := false
  envPfx : Option String := none
  deriving Repr

mutual
/-- Embedding of the Go types the resolution core manipulates. -/
inductive GoType where
  | stringT : GoType
  | boolT : GoType
  | intT (bits : Nat) : GoType
  | uintT (bits : Nat) : GoType
  | sliceT (elem : GoType) : GoType
  | mapT (key : GoType) (val : GoType) : GoType
  | structT (fields : List GoField) : GoType
  | ptrT (elem : GoType) : GoType

/-- A struct field: its Go name, its tags, whether it is settable
(exported), and its type. -/
inductive GoField where
  | mk (name : String) (tag : FieldTag) (settable : Bool) (ty : GoType) : GoField
end

def GoField.name : GoField → String
  | .mk n _ _ _ => n

def GoField.tag : GoField → FieldTag
  | .mk _ t _ _ => t

def GoField.settable : GoField → Bool
  | .mk _ _ s _ => s

def GoField.ty : GoField → GoType
  | .mk _ _ _ t => t

/-- The check `fld.Kind() == reflect.Struct`. -/
def GoType.kindIsStruct : GoType → Bool
  | .structT _ => true
  | _ => false

/-- The check `valueType.Elem().Kind() == reflect.Uint8` for a slice's element type. -/
def GoType.kindIsUint8 : GoType → Bool
  | .uintT 8 => true
  | _ => false

/-- Embedding of Go values.  `none` in the slice/map/pointer payload stands
for a nil slice/map/pointer, `some` for a non-nil one; map contents are an
association list in insertion order. -/
inductive GoValue where
  | str (s : String) : GoValue
  | boolV (b : Bool) : GoValue
  | intV (bits : Nat) (v : Int) : GoValue
  | uintV (bits : Nat) (v : Nat) : GoValue
  | sliceV (elems : Option (List GoValue)) : GoValue
  | mapV (entries : Option (List (GoValue × GoValue))) : GoValue
  | structV (fields : List GoValue) : GoValue
  | ptrV (v : Option GoValue) : GoValue
  deriving Repr

/-- Errors produced by the resolution core, one constructor per error shape
in the Go code. -/
inductive GoErr where
  /-- a `strconv.NumError` / `ParseBool` error surfaced by `parseValue` -/
  | numError (fn : String) (num : String) (msg : String) : GoErr
  /-- `fmt.Errorf("invalid map item: %q", pair)` -/
  | invalidMapItem (pair : String) : GoErr
  /-- `fmt.Errorf("unsupported type %s.%s", ...)` -/
  | unsupportedType (pkg : String) (tyName : String) : GoErr
  /-- `fmt.Errorf("wrong type %v", s.Kind())` -/
  | wrongType (kind : String) : GoErr
  /-- `fmt.Errorf("field %q is required but the value is not provided", ...)` -/
  | requiredField (field : String) : GoErr
  /-- a file-layer error (unsupported extension, open or decode failure) -/
  | fileError (msg : String) : GoErr
  deriving Repr, DecidableEq

/-! ## strconv models -/

/-- Value of a digit character, 36 when the character is not a digit
(Go's `lower`-based digit decoding in `strconv`). -/
def digitVal (c : Char) : Nat :=
  if '0' ≤ c ∧ c ≤ '9' then c.toNat - '0'.toNat
  else if 'a' ≤ c ∧ c ≤ 'z' then c.toNat - 'a'.toNat + 10
  else if 'A' ≤ c ∧ c ≤ 'Z' then c.toNat - 'A'.toNat + 10
  else 36

/-- Accumulate digits in the given base; `none` on the first non-digit. -/
def digitsVal (base : Nat) : List Char → Nat → Option Nat
  | [], acc => some acc
  | c :: cs, acc =>
    if digitVal c < base then digitsVal base cs (acc * base + digitVal c)
    else none

/-- Base detection of `strconv.ParseUint` with `base == 0`: `0b`/`0o`/`0x`
prefixes (upper or lower, requiring at least one further character), else a
leading `0` means octal, else decimal. -/
def splitBasePfx : List Char → Nat × List Char
  | '0' :: c :: rest =>
    if rest ≠ [] ∧ (c = 'b' ∨ c = 'B') then (2, rest)
    else if rest ≠ [] ∧ (c = 'o' ∨ c = 'O') then (8, rest)
    else if rest ≠ [] ∧ (c = 'x' ∨ c = 'X') then (16, rest)
    else (8, c :: rest)
  | '0' :: [] => (8, [])
  | cs => (10, cs)

/-- Model of `strconv.ParseUint(s, 0, bits)` (without underscore separators): error if
empty or if a character is not a digit of the detected base, range error if
the value does not fit in `bits` bits. -/
def goParseUint (s : String) (bits : Nat) : Except GoErr Nat :=
  let cs := s.toList
  if cs = [] then .error (.numError "ParseUint" s "invalid syntax")
  else
    let (base, ds) := splitBasePfx cs
    match digitsVal base ds 0 with
    | none => .error (.numError "ParseUint" s "invalid syntax")
    | some n =>
      if n < 2 ^ bits then .ok n
      else .error (.numError "ParseUint" s "value out of range")

/-- Model of `strconv.ParseInt(s, 0, bits)`: optional sign, then an unsigned parse,
then the signed cutoff check. -/
def goParseInt (s : String) (bits : Nat) : Except GoErr Int :=
  let (neg, rest) :=
    match s.toList with
    | '+' :: cs => (false, cs)
    | '-' :: cs => (true, cs)
    | cs => (false, cs)
  if rest = [] then .error (.numError "ParseInt" s "invalid syntax")
  else
    let (base, ds) := splitBasePfx rest
    match digitsVal base ds 0 with
    | none => .error (.numError "ParseInt" s "invalid syntax")
    | some un =>
      let cutoff := 2 ^ (bits - 1)
      if !neg ∧ un ≥ cutoff then .error (.numError "ParseInt" s "value out of range")
      else if neg ∧ un > cutoff then .error (.numError "ParseInt" s "value out of range")
      else .ok (if neg then -(un : Int) else (un : Int))

/-- Model of `strconv.ParseBool`. -/
def goParseBool (s : String) : Except GoErr Bool :=
  if s = "1" ∨ s = "t" ∨ s = "T" ∨ s = "true" ∨ s = "TRUE" ∨ s = "True" then .ok true
  else if s = "0" ∨ s = "f" ∨ s = "F" ∨ s = "false" ∨ s = "FALSE" ∨ s = "False" then .ok false
  else .error (.numError "ParseBool" s "invalid syntax")

/-! ## isZero -/

mutual
/-- The function `isZero` from `util.go`, the backport of `reflect.Value.IsZero`: strings
are zero when empty, numbers and booleans when zero/false, slices, maps and
pointers when nil, structs when all fields are recursively zero. -/
def isZero : GoValue → Bool
  | .boolV b => !b
  | .intV _ v => v == 0
  | .uintV _ v => v == 0
  | .sliceV o => o.isNone
  | .mapV o => o.isNone
  | .ptrV o => o.isNone
  | .str s => s.length == 0
  | .structV fs => isZeroList fs

/-- All values of a list are zero (the struct case of `isZero`). -/
def isZeroList : List GoValue → Bool
  | [] => true
  | v :: vs => isZero v && isZeroList vs
end

mutual
/-- Structural equality of embedded Go values (Go's `==` on comparable
values, used by map assignment to identify keys). -/
def beqValue : GoValue → GoValue → Bool
  | .str a, .str b => a == b
  | .boolV a, .boolV b => a == b
  | .intV ab a, .intV bb b => ab == bb && a == b
  | .uintV ab a, .uintV bb b => ab == bb && a == b
  | .sliceV none, .sliceV none => true
  | .sliceV (some a), .sliceV (some b) => beqValueList a b
  | .mapV none, .mapV none => true
  | .mapV (some a), .mapV (some b) => beqValuePairs a b
  | .structV a, .structV b => beqValueList a b
  | .ptrV none, .ptrV none => true
  | .ptrV (some a), .ptrV (some b) => beqValue a b
  | _, _ => false

def beqValueList : List GoValue → List GoValue → Bool
  | [], [] => true
  | a :: as', b :: bs => beqValue a b && beqValueList as' bs
  | _, _ => false

def beqValuePairs : List (GoValue × GoValue) → List (GoValue × GoValue) → Bool
  | [], [] => true
  | (ka, va) :: as', (kb, vb) :: bs => beqValue ka kb && beqValue va vb && beqValuePairs as' bs
  | _, _ => false
end

/-- Model of `reflect.Value.SetMapIndex`: replace the value stored under an equal
key, otherwise add the entry. -/
def setMapIndex (k v : GoValue) : List (GoValue × GoValue) → List (GoValue × GoValue)
  | [] => [(k, v)]
  | (k', v') :: rest =>
    if beqValue k' k then (k', v) :: rest else (k', v') :: setMapIndex k v rest

/-- Go map read: the value stored under an equal key. -/
def mapLookup (k : GoValue) : List (GoValue × GoValue) → Option GoValue
  | [] => none
  | (k', v') :: rest => if beqValue k' k then some v' else mapLookup k rest

/-! ## Go string-library models

Go's `strings.Split` and `strings.TrimSpace` are modelled directly over
character lists (with a structural fuel bounded by the input length, so that
everything reduces definitionally). -/

/-- Does `s` start with `p`? -/
def startsWithList (p s : List Char) : Bool :=
  match p, s with
  | [], _ => true
  | _ :: _, [] => false
  | p :: ps, c :: cs => p == c && startsWithList ps cs

/-- Scanner of `strings.Split` for a non-empty separator: cut the input at
every occurrence of the separator.  `fuel` bounds the number of steps; it is
called with more fuel than there are characters, so the fuel-exhausted arm
is never reached. -/
def goSplitAux (sep : List Char) : Nat → List Char → List Char → List (List Char)
  | 0, acc, s => [acc.reverse ++ s]
  | _ + 1, acc, [] => [acc.reverse]
  | fuel + 1, acc, c :: rest =>
    if startsWithList sep (c :: rest) then
      acc.reverse :: goSplitAux sep fuel [] ((c :: rest).drop sep.length)
    else
      goSplitAux sep fuel (c :: acc) rest

/-- Model of `strings.Split(s, sep)`: with an empty separator the string explodes
into one piece per character, otherwise it is cut at every occurrence of
`sep` (`Split("", sep) = [""]`, and leading/trailing/adjacent separators
produce empty pieces). -/
def goSplit (s sep : String) : List String :=
  match sep.data with
  | [] => s.data.map (fun c => String.mk [c])
  | sd => (goSplitAux sd (s.data.length + 1) [] s.data).map String.mk

/-- Model of `unicode.IsSpace` restricted to Latin-1 (`\t \n \v \f \r`, space,
U+0085, U+00A0); whitespace beyond Latin-1 is outside the model. -/
def isGoSpace (c : Char) : Bool :=
  c == ' ' || c == '\t' || c == '\n' || c == Char.ofNat 11 || c == Char.ofNat 12 ||
    c == '\r' || c == Char.ofNat 0x85 || c == Char.ofNat 0xA0

/-- Model of `strings.TrimSpace`. -/
def goTrimSpace (s : String) : String :=
  String.mk (((s.data.dropWhile isGoSpace).reverse.dropWhile isGoSpace).reverse)

/-! ## The coercion engine: parseValue / parseSlice / parseMap -/

/-- Join pieces with a separator (used to model that `SplitN(s, sep, 2)`
keeps everything after the first separator occurrence unsplit). -/
def joinSep (sep : String) : List String → String
  | [] => ""
  | [x] => x
  | x :: rest => x ++ sep ++ joinSep sep rest

/-- Model of `strings.SplitN(s, sep, 2)`: split on the first occurrence only. -/
def splitN2 (s sep : String) : List String :=
  match goSplit s sep with
  | [] => []
  | [x] => [x]
  | x :: rest => [x, joinSep sep rest]

/-- The UTF-8 encoding of a character. -/
def utf8Bytes (c : Char) : List Nat :=
  let n := c.toNat
  if n < 0x80 then [n]
  else if n < 0x800 then
    [0xC0 ||| (n >>> 6), 0x80 ||| (n &&& 0x3F)]
  else if n < 0x10000 then
    [0xE0 ||| (n >>> 12), 0x80 ||| ((n >>> 6) &&& 0x3F), 0x80 ||| (n &&& 0x3F)]
  else
    [0xF0 ||| (n >>> 18), 0x80 ||| ((n >>> 12) &&& 0x3F),
      0x80 ||| ((n >>> 6) &&& 0x3F), 0x80 ||| (n &&& 0x3F)]

/-- The UTF-8 bytes of a string as Go `uint8` values (`[]byte(value)`). -/
def stringBytes (s : String) : List GoValue :=
  ((s.data.map utf8Bytes).flatten).map (.uintV 8)

mutual
/-- The function `parseValue` from `util.go`: coerce a raw textual value into a field of
the given type (custom `Setter` types are outside the modelled universe, so
the initial `Setter` delegation is not represented).  Struct and pointer
kinds fall into the `default` branch, `unsupported type`. -/
def parseValue (t : GoType) (value sep : String) : Except GoErr GoValue :=
  match t with
  | .stringT => .ok (.str value)
  | .boolT =>
    match goParseBool value with
    | .error e => .error e
    | .ok b => .ok (.boolV b)
  | .intT bits =>
    match goParseInt value bits with
    | .error e => .error e
    | .ok n => .ok (.intV bits n)
  | .uintT bits =>
    match goParseUint value bits with
    | .error e => .error e
    | .ok n => .ok (.uintV bits n)
  | .sliceT elemT => parseSlice elemT value sep
  | .mapT keyT valT => parseMap keyT valT value sep
  | .structT _ => .error (.unsupportedType "" "")
  | .ptrT _ => .error (.unsupportedType "" "")
termination_by (3 * sizeOf t, 0)

/-- The function `parseSlice` from `util.go` (the argument is the slice's element type;
the Go code passes the slice type and asks for `.Elem()`): a byte-element
slice stores the raw bytes verbatim, a whitespace-only raw value yields an
empty non-nil slice, anything else is split on the separator and each piece
recursively coerced. -/
def parseSlice (elemT : GoType) (value sep : String) : Except GoErr GoValue :=
  if elemT.kindIsUint8 then .ok (.sliceV (some (stringBytes value)))
  else if (goTrimSpace value).length ≠ 0 then
    match parseSliceElems elemT (goSplit value sep) sep with
    | .error e => .error e
    | .ok vs => .ok (.sliceV (some vs))
  else .ok (.sliceV (some []))
termination_by (3 * sizeOf elemT + 2, 0)

/-- The element loop of `parseSlice`. -/
def parseSliceElems (elemT : GoType) (vals : List String) (sep : String) :
    Except GoErr (List GoValue) :=
  match vals with
  | [] => .ok []
  | v :: vs =>
    match parseValue elemT v sep with
    | .error e => .error e
    | .ok w =>
      match parseSliceElems elemT vs sep with
      | .error e => .error e
      | .ok ws => .ok (w :: ws)
termination_by (3 * sizeOf elemT + 1, vals.length)

/-- The function `parseMap` from `util.go` (arguments are the map's key and value types):
a whitespace-only raw value yields an empty non-nil map, anything else is
split on the separator into pairs, each pair split on the first `:` only. -/
def parseMap (keyT valT : GoType) (value sep : String) : Except GoErr GoValue :=
  if (goTrimSpace value).length ≠ 0 then
    match parseMapPairs keyT valT (goSplit value sep) sep [] with
    | .error e => .error e
    | .ok entries => .ok (.mapV (some entries))
  else .ok (.mapV (some []))
termination_by (3 * (sizeOf keyT + sizeOf valT) + 2, 0)

/-- The pair loop of `parseMap`: accumulates entries with `setMapIndex`. -/
def parseMapPairs (keyT valT : GoType) (pairs : List String) (sep : String)
    (acc : List (GoValue × GoValue)) : Except GoErr (List (GoValue × GoValue)) :=
  match pairs with
  | [] => .ok acc
  | pair :: rest =>
    match splitN2 pair ":" with
    | [kRaw, vRaw] =>
      match parseValue keyT kRaw sep with
      | .error e => .error e
      | .ok k =>
        match parseValue valT vRaw sep with
        | .error e => .error e
        | .ok v => parseMapPairs keyT valT rest sep (setMapIndex k v acc)
    | _ => .error (.invalidMapItem pair)
termination_by (3 * (sizeOf keyT + sizeOf valT) + 1, pairs.length)
end

/-! ## Metadata extraction -/

/-- The structure `structMeta` from `util.go`.  The `fieldValue reflect.Value` handle is
embedded as the field's path into the root value (`fieldPath`) together with
the field's type (`fieldType`), which a `reflect.Value` carries. -/
structure structMeta where
  envList : List String
  flagName : String
  fieldName : String
  fieldPath : List Nat
  fieldType : GoType
  defValue : Option String
  separator : String
  required : Bool

/-- Read the value stored at a field path (dereferencing the stored
`reflect.Value`); paths produced by metadata extraction are valid on any
value conforming to the extracted type, so the fallback is irrelevant. -/
def getField : GoValue → List Nat → GoValue
  | v, [] => v
  | .structV fs, i :: p => getField (fs.getD i (.str "")) p
  | _, _ :: _ => .str ""

/-- Write the value stored at a field path (assignment through the stored
`reflect.Value`). -/
def setField : GoValue → List Nat → GoValue → GoValue
  | _, [], w => w
  | .structV fs, i :: p, w => .structV (fs.set i (setField (fs.getD i (.str "")) p w))
  | v, _ :: _, _ => v

/-- The method `structMeta.isFieldValueZero`, reading the live field through the
handle. -/
def isFieldValueZero (cfg : GoValue) (m : structMeta) : Bool :=
  isZero (getField cfg m.fieldPath)

/-- A `cfgNode` of `readStructMetadata`'s work queue: the node's position in
the root value, its accumulated prefix and its type. -/
structure CfgNode where
  path : List Nat
  pfx : String
  ty : GoType

/-- Build the `structMeta` recorded for field number `i` (named `name`, of
type `ty`, carrying `tag`) of a struct at `path` whose accumulated prefix is
`sPfx`: default, flag name, separator and required tag lookups, and the
env name list split on `,` and prefixed with `sPfx` when non-empty. -/
def mkMeta (path : List Nat) (sPfx : String) (i : Nat) (name : String)
    (tag : FieldTag) (ty : GoType) : structMeta :=
  let envList : List String :=
    match tag.env with
    | some envs =>
      if envs ≠ "" then
        let l := goSplit envs ","
        if sPfx ≠ "" then l.map (fun n => sPfx ++ n) else l
      else []
    | none => []
  { envList := envList
    flagName := (tag.flagTag).getD ""
    fieldName := name
    fieldPath := path ++ [i]
    fieldType := ty
    defValue := tag.envDefault
    separator := (tag.envSeparator).getD ","
    required := tag.envRequired }

/-- The per-struct field loop of `readStructMetadata`: returns the metas
recorded for this struct's fields (in declaration order) and the child
nodes enqueued for nested structures.  A field whose kind is a struct is
enqueued with the concatenated prefix *and* still falls through to the
settable check and is recorded as a meta itself (the Go loop has no
`continue` after the enqueue); a non-settable field is skipped. -/
def processFields (path : List Nat) (sPfx : String) :
    Nat → List GoField → List structMeta × List CfgNode
  | _, [] => ([], [])
  | i, .mk name tag settable ty :: fs =>
    let rest := processFields path sPfx (i + 1) fs
    let children :=
      if ty.kindIsStruct then
        ⟨path ++ [i], sPfx ++ (tag.envPfx).getD "", ty⟩ :: rest.2
      else rest.2
    let metas :=
      if settable then mkMeta path sPfx i name tag ty :: rest.1 else rest.1
    (metas, children)

/-- The kind `s.Kind()` rendered for the `wrong type %v` error. -/
def GoType.kindName : GoType → String
  | .stringT => "string"
  | .boolT => "bool"
  | .intT bits => "int" ++ toString bits
  | .uintT bits => "uint" ++ toString bits
  | .sliceT _ => "slice"
  | .mapT _ _ => "map"
  | .structT _ => "struct"
  | .ptrT _ => "ptr"

/-- The pointer unwrap at the top of the queue loop (`if s.Kind() ==
reflect.Ptr { s = s.Elem() }`). -/
def unwrapPtr : GoType → GoType
  | .ptrT e => e
  | t => t

mutual
/-- Structural size of a type, the termination measure of the queue
traversal. -/
def tsize : GoType → Nat
  | .stringT => 1
  | .boolT => 1
  | .intT _ => 1
  | .uintT _ => 1
  | .sliceT e => 1 + tsize e
  | .mapT k v => 1 + tsize k + tsize v
  | .structT fs => 1 + tsizeFields fs
  | .ptrT e => 1 + tsize e

def tsizeFields : List GoField → Nat
  | [] => 0
  | f :: fs => tsizeField f + tsizeFields fs

def tsizeField : GoField → Nat
  | .mk _ _ _ t => 1 + tsize t
end

/-- Combined size of the types still in the queue, the termination measure
of the breadth-first traversal. -/
def queueSize (q : List CfgNode) : Nat :=
  (q.map (fun n => tsize n.ty)).sum

theorem queueSize_append (a b : List CfgNode) :
    queueSize (a ++ b) = queueSize a + queueSize b := by
  simp [queueSize]

theorem tsize_unwrapPtr_le (t : GoType) : tsize (unwrapPtr t) ≤ tsize t := by
  cases t <;> simp [unwrapPtr, tsize]

theorem processFields_children_size (path : List Nat) (sPfx : String) :
    ∀ (fs : List GoField) (i : Nat),
      queueSize (processFields path sPfx i fs).2 < tsize (GoType.structT fs)
  | [], _ => by simp [processFields, queueSize, tsize, tsizeFields]
  | .mk name tag settable ty :: fs, i => by
    have ih := processFields_children_size path sPfx fs (i + 1)
    simp only [tsize, tsizeFields, tsizeField] at *
    by_cases h : ty.kindIsStruct <;>
      simp only [processFields, h, Bool.false_eq_true, if_true, if_false, queueSize,
        List.map_cons, List.sum_cons] at * <;> omega

/-- The queue loop of `readStructMetadata`: dequeue a node, unwrap a
pointer, fail unless the node is a struct, record the metas of its fields
and append the nested-structure children to the queue. -/
def bfsMetadata (q : List CfgNode) : Except GoErr (List structMeta) :=
  match q with
  | [] => .ok []
  | n :: rest =>
    match hu : unwrapPtr n.ty with
    | .structT fs =>
      let step := processFields n.path n.pfx 0 fs
      match bfsMetadata (rest ++ step.2) with
      | .error e => .error e
      | .ok more => .ok (step.1 ++ more)
    | t => .error (.wrongType t.kindName)
termination_by queueSize q
decreasing_by
  have h1 : queueSize (processFields n.path n.pfx 0 fs).2 < tsize (GoType.structT fs) :=
    processFields_children_size n.path n.pfx fs 0
  have h2 : tsize (GoType.structT fs) ≤ tsize n.ty := by
    have := tsize_unwrapPtr_le n.ty
    rw [hu] at this
    exact this
  have h3 := queueSize_append rest (processFields n.path n.pfx 0 fs).2
  simp only [queueSize, List.map_cons, List.sum_cons] at *
  omega

/-- The function `readStructMetadata` from `util.go`, run on the root configuration type
(the caller passes a pointer to the root struct, so fields are addressable
and exported fields are settable). -/
def readStructMetadata (root : GoType) : Except GoErr (List structMeta) :=
  bfsMetadata [⟨[], "", root⟩]

/-! ## Source readers and orchestration -/

/-- The process environment, a read-only snapshot; `os.LookupEnv` reports a
variable set to the empty string as present. -/
def lookupEnv (env : List (String × String)) (name : String) : Option String :=
  (env.find? (fun p => p.1 == name)).map (fun p => p.2)

/-- The probe loop of `readEnvVars`: the value of the first listed variable
that is present in the environment. -/
def firstEnvValue (env : List (String × String)) : List String → Option String
  | [] => none
  | n :: ns =>
    match lookupEnv env n with
    | some v => some v
    | none => firstEnvValue env ns

/-- The function `readEnvVars` from `util.go`: for each meta in order, take the first
present environment variable; failing that, fall back to the declared
default when the field is currently zero; when a raw value was obtained,
coerce it into the field, aborting on a coercion error. -/
def readEnvVars (env : List (String × String)) :
    List structMeta → GoValue → Except GoErr GoValue
  | [], cfg => .ok cfg
  | m :: rest, cfg =>
    let rawValue := firstEnvValue env m.envList
    let rawValue :=
      if rawValue = none ∧ isFieldValueZero cfg m then m.defValue else rawValue
    match rawValue with
    | none => readEnvVars env rest cfg
    | some raw =>
      match parseValue m.fieldType raw m.separator with
      | .error e => .error e
      | .ok v => readEnvVars env rest (setField cfg m.fieldPath v)

/-- The observable state of a registered `pflag.Flag`: `Value.String()`,
`DefValue`, and `Changed`. -/
structure GoFlag where
  value : String
  defValue : String
  changed : Bool

/-- The lookup `flags.Lookup(name)` on the externally registered flag set. -/
def lookupFlag (flags : List (String × GoFlag)) (name : String) : Option GoFlag :=
  (flags.find? (fun p => p.1 == name)).map (fun p => p.2)

/-- Model of `reflect.Value.String()`: the string itself for a string value, and the
`"<T Value>"` placeholder for every other kind. -/
def valueString : GoValue → String
  | .str s => s
  | .boolV _ => "<bool Value>"
  | .intV bits _ => "<int" ++ toString bits ++ " Value>"
  | .uintV bits _ => "<uint" ++ toString bits ++ " Value>"
  | .sliceV _ => "<slice Value>"
  | .mapV _ => "<map Value>"
  | .structV _ => "<struct Value>"
  | .ptrV _ => "<ptr Value>"

/-- The function `parseFlags` from `util.go`: for each meta with a non-empty flag name,
use the looked-up flag's value if the flag was changed; otherwise use the
flag's non-empty declared default when the field is zero or its
`reflect.Value.String()` rendering equals the declared env default; then
fall back to the env default when the field is still zero; coerce whatever
raw value was obtained. -/
def parseFlags (flags : List (String × GoFlag)) :
    List structMeta → GoValue → Except GoErr GoValue
  | [], cfg => .ok cfg
  | m :: rest, cfg =>
    let rawValue : Option String :=
      if m.flagName ≠ "" then
        match lookupFlag flags m.flagName with
        | some flag =>
          if flag.changed then some flag.value
          else
            let defMatches : Bool :=
              match m.defValue with
              | some d => valueString (getField cfg m.fieldPath) == d
              | none => false
            if flag.defValue ≠ "" ∧ (isFieldValueZero cfg m ∨ defMatches) then
              some flag.defValue
            else none
        | none => none
      else none
    let rawValue :=
      if rawValue = none ∧ isFieldValueZero cfg m then m.defValue else rawValue
    match rawValue with
    | none => parseFlags flags rest cfg
    | some raw =>
      match parseValue m.fieldType raw m.separator with
      | .error e => .error e
      | .ok v => parseFlags flags rest (setField cfg m.fieldPath v)

/-- The function `checkRequired` from `util.go`: fail on the first meta tagged required
whose field is (still) zero. -/
def checkRequired : List structMeta → GoValue → Except GoErr Unit
  | [], _ => .ok ()
  | m :: rest, cfg =>
    if m.required ∧ isFieldValueZero cfg m then
      .error (.requiredField m.fieldName)
    else checkRequired rest cfg

/-- The function `Read` from `util.go`.  The file layer (`findDefaultFile` + `parseFile`:
a filesystem probe followed by a whole-structure YAML/JSON decode through
external libraries) is embedded as an optional abstract transformation of
the whole configuration value: `none` when no file was given and no default
file exists (the layer is skipped), `some f` when a file is read, `f`
standing for what the decoder does to the structure.  Metadata is extracted
first; the env layer always runs; the flag layer runs when a flag set was
supplied; the required check runs last. -/
def Read (root : GoType) (cfg : GoValue)
    (fileLayer : Option (GoValue → Except GoErr GoValue))
    (flags : Option (List (String × GoFlag)))
    (env : List (String × String)) : Except GoErr GoValue :=
  match readStructMetadata root with
  | .error e => .error e
  | .ok metaInfo =>
    match (match fileLayer with | some f => f cfg | none => .ok cfg) with
    | .error e => .error e
    | .ok cfg1 =>
      match readEnvVars env metaInfo cfg1 with
      | .error e => .error e
      | .ok cfg2 =>
        match (match flags with
               | some fl => parseFlags fl metaInfo cfg2
               | none => .ok cfg2) with
        | .error e => .error e
        | .ok cfg3 =>
          match checkRequired metaInfo cfg3 with
          | .error e => .error e
          | .ok _ => .ok cfg3

/-! ## Configuration shapes used by the theorems -/

/-- A configuration struct with a single settable field. -/
def oneFieldTy (name : String) (tag : FieldTag) (ty : GoType) : GoType :=
  .structT [.mk name tag true ty]

/-- The field tag of the precedence scenarios: env name `NAME`, declared
default `d`, flag name `conf`. -/
def precTag (d : String) : FieldTag :=
  { env := some "NAME", envDefault := some d, flagTag := some "conf" }

/-- A struct holding a settable nested struct (field `Sub`, with one leaf
`X`) next to a leaf field `Y`. -/
def nestedPairTy : GoType :=
  .structT [.mk "Sub" {} true (.structT [.mk "X" {} true .stringT]),
    .mk "Y" {} true .stringT]

/-- Three nested levels: `Outer` (prefix `p1`) containing `Inner` (prefix
`p2`) containing the leaf `Leaf` with env tag `envName`. -/
def nested3Ty (p1 p2 envName : String) (ty : GoType) : GoType :=
  .structT [.mk "Outer" { envPfx := some p1 } true
    (.structT [.mk "Inner" { envPfx := some p2 } true
      (.structT [.mk "Leaf" { env := some envName } true ty])])]

/-- A configuration with one required integer-slice field bound to env
variable `ITEMS`. -/
def requiredSliceTy : GoType :=
  .structT [.mk "Items" { env := some "ITEMS", envRequired := true } true
    (.sliceT (.intT 64))]

/-- An `int64` field with env name `TEST_I`, declared default `5` and flag
name `num`. -/
def intDefaultTy : GoType :=
  .structT [.mk "Num" { env := some "TEST_I", envDefault := some "5", flagTag := some "num" }
    true (.intT 64)]

/-! ## Specification-side description of the extracted descriptors

`settablePathsFields` is a refinement-style definition written from the
specification's vocabulary (settable fields, descending into fields whose
kind is a structure), used to compare the extractor's output against the
spec's invariant. -/

mutual
/-- Relative paths of the settable fields of a field list, descending into
fields whose kind is exactly a structure (field `i` contributes `[i]` when
settable, plus `i :: p` for every path `p` inside it when it is a
struct). -/
def settablePathsFields : List GoField → Nat → List (List Nat)
  | [], _ => []
  | .mk _ _ s ty :: fs, i =>
    (if s then [[i]] else []) ++ (childPaths ty).map (fun p => i :: p) ++
      settablePathsFields fs (i + 1)
termination_by fs _ => tsizeFields fs
decreasing_by
  all_goals simp [tsizeFields, tsizeField, tsize]
  all_goals omega

/-- The settable-field paths inside a field's type: those of its fields when
its kind is exactly a struct, nothing otherwise. -/
def childPaths : GoType → List (List Nat)
  | .structT gs => settablePathsFields gs 0
  | _ => []
termination_by ty => tsize ty
decreasing_by
  all_goals simp [tsizeFields, tsizeField, tsize]
end

/-- Paths of the settable fields reachable from a root type (after the
root-level pointer unwrap). -/
def settablePaths (t : GoType) : List (List Nat) :=
  childPaths (unwrapPtr t)

/-- The settable-field paths contributed by one queue node. -/
def nodeSpec (n : CfgNode) : List (List Nat) :=
  (settablePaths n.ty).map (fun p => n.path ++ p)

/-! ## General lemmas about the readers and the coercion engine -/

theorem firstEnvValue_append_absent (env : List (String × String)) {ns1 : List String}
    (rest : List String) (h : ∀ x ∈ ns1, lookupEnv env x = none) :
    firstEnvValue env (ns1 ++ rest) = firstEnvValue env rest := by
  induction ns1 with
  | nil => rfl
  | cons n ns ih =>
    have hn : lookupEnv env n = none := h n (by simp)
    simp only [List.cons_append, firstEnvValue, hn]
    exact ih (fun x hx => h x (by simp [hx]))

theorem firstEnvValue_none (env : List (String × String)) {ns : List String}
    (h : ∀ x ∈ ns, lookupEnv env x = none) :
    firstEnvValue env ns = none := by
  have := firstEnvValue_append_absent env [] h
  simpa using this

/-- The element loop of `parseSlice` is `mapM` of `parseValue` over the
pieces. -/
theorem parseSliceElems_eq_mapM (elemT : GoType) (vals : List String) (sep : String) :
    parseSliceElems elemT vals sep = vals.mapM (fun x => parseValue elemT x sep) := by
  induction vals with
  | nil =>
    rw [parseSliceElems]
    rfl
  | cons v vs ih =>
    rw [parseSliceElems, List.mapM_cons, ih]
    cases hv : parseValue elemT v sep with
    | error e => rfl
    | ok w =>
      cases hm : vs.mapM (fun x => parseValue elemT x sep) with
      | error e => rfl
      | ok ws => rfl

/-! ## Claim theorems -/

/-- C6: map coercion splits the raw value on the separator into pairs, each
pair on the first `:` only; a pair that does not yield exactly two parts
fails with the invalid-map-item coercion error; key and value are
recursively coerced, and a repeated key keeps the last write: `"a:1,b:2"`
into a string-to-int64 map gives `{a:1, b:2}`, the colon-free pair `"a"`
fails, `"k:v1:v2"` keeps the second colon inside the value, and
`"a:1,a:2"` ends with `a` bound to `2`. -/
theorem C6_mapping_coercion :
    (parseValue (.mapT .stringT (.intT 64)) "a:1,b:2" "," =
      .ok (.mapV (some [(.str "a", .intV 64 1), (.str "b", .intV 64 2)]))) ∧
    (parseValue (.mapT .stringT (.intT 64)) "a" "," = .error (.invalidMapItem "a")) ∧
    (parseValue (.mapT .stringT .stringT) "k:v1:v2" "," =
      .ok (.mapV (some [(.str "k", .str "v1:v2")]))) ∧
    (parseValue (.mapT .stringT (.intT 64)) "a:1,a:2" "," =
      .ok (.mapV (some [(.str "a", .intV 64 2)]))) ∧
    (∀ (keyT valT : GoType) (pair : String) (rest : List String) (sep : String)
        (acc : List (GoValue × GoValue)),
      (splitN2 pair ":").length ≠ 2 →
      parseMapPairs keyT valT (pair :: rest) sep acc = .error (.invalidMapItem pair)) := by
  refine ⟨?_, ?_, ?_, ?_, ?_⟩
  · simp [parseValue, parseMap, parseMapPairs, splitN2, joinSep, goSplit, goSplitAux, goTrimSpace,
      startsWithList, isGoSpace, goParseInt, splitBasePfx, digitsVal, digitVal, setMapIndex,
      beqValue] <;> decide
  · simp [parseValue, parseMap, parseMapPairs, splitN2, joinSep, goSplit, goSplitAux, goTrimSpace,
      startsWithList, isGoSpace] <;> decide
  · simp [parseValue, parseMap, parseMapPairs, splitN2, joinSep, goSplit, goSplitAux, goTrimSpace,
      startsWithList, isGoSpace, setMapIndex, beqValue] <;> decide
  · simp [parseValue, parseMap, parseMapPairs, splitN2, joinSep, goSplit, goSplitAux, goTrimSpace,
      startsWithList, isGoSpace, goParseInt, splitBasePfx, digitsVal, digitVal, setMapIndex,
      beqValue] <;> decide
  · intro keyT valT pair rest sep acc h
    rcases hs : splitN2 pair ":" with _ | ⟨x, _ | ⟨y, _ | ⟨z, t⟩⟩⟩
    · rw [parseMapPairs, hs]
    · rw [parseMapPairs, hs]
    · exact absurd (by simp [hs]) h
    · rw [parseMapPairs, hs]

/-- C6 witness: the colon-free-pair conjunct applied at the concrete pair
`"a"`. -/
theorem C6_mapping_coercion_witness :
    parseMapPairs .stringT (.intT 64) ["a"] "," [] = .error (.invalidMapItem "a") :=
  C6_mapping_coercion.2.2.2.2 .stringT (.intT 64) "a" [] "," [] (by decide)

/-- C7: slice coercion stores the raw bytes verbatim when the element type
is a single byte; otherwise a whitespace-only raw value yields an empty
(non-nil) sequence, and any other raw value is split on the separator with
every element recursively coerced by `parseValue` with the same separator;
`"1,2,3"` with the default comma separator into an int64 sequence gives
`[1,2,3]`. -/
theorem C7_sequence_coercion :
    (∀ (v sep : String),
      parseValue (.sliceT (.uintT 8)) v sep = .ok (.sliceV (some (stringBytes v)))) ∧
    (∀ (elemT : GoType) (v sep : String), elemT.kindIsUint8 = false →
      (goTrimSpace v).length = 0 →
      parseValue (.sliceT elemT) v sep = .ok (.sliceV (some []))) ∧
    (∀ (elemT : GoType) (v sep : String), elemT.kindIsUint8 = false →
      (goTrimSpace v).length ≠ 0 →
      parseValue (.sliceT elemT) v sep =
        (match (goSplit v sep).mapM (fun x => parseValue elemT x sep) with
         | .error e => .error e
         | .ok ws => .ok (.sliceV (some ws)))) ∧
    (parseValue (.sliceT (.intT 64)) "1,2,3" "," =
      .ok (.sliceV (some [.intV 64 1, .intV 64 2, .intV 64 3]))) := by
  refine ⟨?_, ?_, ?_, ?_⟩
  · intro v sep
    simp [parseValue, parseSlice, GoType.kindIsUint8]
  · intro elemT v sep hbyte htrim
    simp [parseValue, parseSlice, hbyte, htrim]
  · intro elemT v sep hbyte htrim
    rw [parseValue, parseSlice, ← parseSliceElems_eq_mapM]
    simp [hbyte, htrim]
  · simp [parseValue, parseSlice, parseSliceElems, goParseInt, splitBasePfx, digitsVal,
      digitVal, GoType.kindIsUint8, goSplit, goSplitAux, goTrimSpace, startsWithList,
      isGoSpace] <;> decide

/-- C7 witness: the byte-verbatim and whitespace conjuncts applied at
concrete inputs. -/
theorem C7_sequence_coercion_witness :
    parseValue (.sliceT (.uintT 8)) "ab" "," =
      .ok (.sliceV (some [.uintV 8 97, .uintV 8 98])) ∧
    parseValue (.sliceT (.intT 64)) " " "," = .ok (.sliceV (some [])) := by
  constructor
  · have h := C7_sequence_coercion.1 "ab" ","
    rw [h]
    rfl
  · exact C7_sequence_coercion.2.1 (.intT 64) " " "," (by decide) (by decide)

/-- C9: coercing a whitespace-only raw value into a non-byte slice field or
a map field succeeds and stores an empty but non-nil collection, which the
nil-ness zero check counts as non-zero, so an environment variable set to
the empty string satisfies a required collection field during `Read`. -/
theorem C9_empty_collection_nonzero :
    (∀ (elemT : GoType) (v sep : String), elemT.kindIsUint8 = false →
      (goTrimSpace v).length = 0 →
      parseValue (.sliceT elemT) v sep = .ok (.sliceV (some [])) ∧
        isZero (.sliceV (some [])) = false) ∧
    (∀ (keyT valT : GoType) (v sep : String), (goTrimSpace v).length = 0 →
      parseValue (.mapT keyT valT) v sep = .ok (.mapV (some [])) ∧
        isZero (.mapV (some [])) = false) ∧
    (Read requiredSliceTy (.structV [.sliceV none]) none none [("ITEMS", "")] =
      .ok (.structV [.sliceV (some [])])) := by
  refine ⟨?_, ?_, ?_⟩
  · intro elemT v sep hbyte htrim
    exact ⟨by simp [parseValue, parseSlice, hbyte, htrim], by simp [isZero]⟩
  · intro keyT valT v sep htrim
    exact ⟨by simp [parseValue, parseMap, htrim], by simp [isZero]⟩
  · simp [Read, readStructMetadata, bfsMetadata, processFields, mkMeta, unwrapPtr,
      requiredSliceTy, readEnvVars, firstEnvValue, lookupEnv, isFieldValueZero, getField,
      setField, isZero, parseValue, parseSlice, parseSliceElems, goSplit, goSplitAux,
      goTrimSpace, startsWithList, isGoSpace, GoType.kindIsUint8, GoType.kindIsStruct,
      checkRequired]

/-- C9 witness: the slice and map conjuncts applied at the empty raw
value. -/
theorem C9_empty_collection_nonzero_witness :
    (parseValue (.sliceT (.intT 64)) "" "," = .ok (.sliceV (some [])) ∧
      isZero (.sliceV (some [])) = false) ∧
    (parseValue (.mapT .stringT .stringT) "" "," = .ok (.mapV (some [])) ∧
      isZero (.mapV (some [])) = false) :=
  ⟨C9_empty_collection_nonzero.1 (.intT 64) "" "," (by decide) (by decide),
   C9_empty_collection_nonzero.2.1 .stringT .stringT "" "," (by decide)⟩

/-- C10: the extractor descends only into fields whose kind is exactly a
struct: a nested struct behind a pointer field is never enqueued, so its
inner fields get no descriptors (only the pointer field itself is
recorded), and coercing any raw value into a pointer field fails with the
unsupported-type error, also through a full `Read` when a source supplies a
value for it. -/
theorem C10_pointer_fields :
    (∀ (name : String) (tag : FieldTag) (inner : List GoField),
      readStructMetadata (.structT [.mk name tag true (.ptrT (.structT inner))]) =
        .ok [mkMeta [] "" 0 name tag (.ptrT (.structT inner))]) ∧
    (∀ (e : GoType) (raw sep : String),
      parseValue (.ptrT e) raw sep = .error (.unsupportedType "" "")) ∧
    (∀ (inner : List GoField) (v : String),
      Read (.structT [.mk "P" { env := some "PV" } true (.ptrT (.structT inner))])
        (.structV [.ptrV none]) none none [("PV", v)] =
        .error (.unsupportedType "" "")) := by
  refine ⟨?_, ?_, ?_⟩
  · intro name tag inner
    simp [readStructMetadata, bfsMetadata, processFields, unwrapPtr, GoType.kindIsStruct]
  · intro e raw sep
    simp [parseValue]
  · intro inner v
    simp [Read, readStructMetadata, bfsMetadata, processFields, mkMeta, unwrapPtr,
      GoType.kindIsStruct, readEnvVars, firstEnvValue, lookupEnv, goSplit, goSplitAux,
      startsWithList, parseValue]

/-- C10 witness: the three conjuncts applied at a concrete inner struct and
raw value. -/
theorem C10_pointer_fields_witness :
    readStructMetadata (.structT [.mk "P" {} true (.ptrT (.structT [.mk "In" {} true .stringT]))]) =
      .ok [mkMeta [] "" 0 "P" {} (.ptrT (.structT [.mk "In" {} true .stringT]))] ∧
    parseValue (.ptrT .stringT) "x" "," = .error (.unsupportedType "" "") ∧
    Read (.structT [.mk "P" { env := some "PV" } true (.ptrT (.structT [.mk "In" {} true .stringT]))])
      (.structV [.ptrV none]) none none [("PV", "x")] = .error (.unsupportedType "" "") :=
  ⟨C10_pointer_fields.1 "P" {} [.mk "In" {} true .stringT],
   C10_pointer_fields.2.1 .stringT "x" ",",
   C10_pointer_fields.2.2 [.mk "In" {} true .stringT] "x"⟩

/-- C5: the environment reader probes a descriptor's env names in declared
order and applies the value of the first present variable (presence
includes a variable set to the empty string, which the witness
instantiates); when none is present it applies the declared default only if
the field is currently zero; when none is present and the field is non-zero
or there is no default, the field is left unchanged. -/
theorem C5_env_reader :
    (∀ (env : List (String × String)) (m : structMeta) (cfg : GoValue)
        (ns1 ns2 : List String) (n v : String) (w : GoValue),
      m.envList = ns1 ++ n :: ns2 →
      (∀ x ∈ ns1, lookupEnv env x = none) →
      lookupEnv env n = some v →
      parseValue m.fieldType v m.separator = .ok w →
      readEnvVars env [m] cfg = .ok (setField cfg m.fieldPath w)) ∧
    (∀ (env : List (String × String)) (m : structMeta) (cfg : GoValue) (d : String)
        (w : GoValue),
      (∀ x ∈ m.envList, lookupEnv env x = none) →
      isFieldValueZero cfg m = true →
      m.defValue = some d →
      parseValue m.fieldType d m.separator = .ok w →
      readEnvVars env [m] cfg = .ok (setField cfg m.fieldPath w)) ∧
    (∀ (env : List (String × String)) (m : structMeta) (cfg : GoValue),
      (∀ x ∈ m.envList, lookupEnv env x = none) →
      isFieldValueZero cfg m = false →
      readEnvVars env [m] cfg = .ok cfg) ∧
    (∀ (env : List (String × String)) (m : structMeta) (cfg : GoValue),
      (∀ x ∈ m.envList, lookupEnv env x = none) →
      m.defValue = none →
      readEnvVars env [m] cfg = .ok cfg) := by
  refine ⟨?_, ?_, ?_, ?_⟩
  · intro env m cfg ns1 ns2 n v w hlist habs hn hparse
    have hf : firstEnvValue env m.envList = some v := by
      rw [hlist, firstEnvValue_append_absent env _ habs]
      simp [firstEnvValue, hn]
    simp [readEnvVars, hf, hparse]
  · intro env m cfg d w habs hzero hdef hparse
    have hf : firstEnvValue env m.envList = none := firstEnvValue_none env habs
    simp [readEnvVars, hf, hzero, hdef, hparse]
  · intro env m cfg habs hnz
    have hf : firstEnvValue env m.envList = none := firstEnvValue_none env habs
    simp [readEnvVars, hf, hnz]
  · intro env m cfg habs hdef
    have hf : firstEnvValue env m.envList = none := firstEnvValue_none env habs
    simp [readEnvVars, hf, hdef]

/-- C5 witness: instantiates the first-present conjunct with the second
listed variable present and set to the empty string (probing skips the
absent first name and the empty-string value counts as present), and the
remaining conjuncts at concrete descriptors. -/
theorem C5_env_reader_witness :
    readEnvVars [("B", "")]
      [{ envList := ["A", "B"], flagName := "", fieldName := "F", fieldPath := [0],
         fieldType := .stringT, defValue := some "d", separator := ",", required := false }]
      (.structV [.str "old"]) = .ok (setField (.structV [.str "old"]) [0] (.str "")) ∧
    readEnvVars []
      [{ envList := ["A"], flagName := "", fieldName := "F", fieldPath := [0],
         fieldType := .stringT, defValue := some "d", separator := ",", required := false }]
      (.structV [.str ""]) = .ok (setField (.structV [.str ""]) [0] (.str "d")) ∧
    readEnvVars []
      [{ envList := ["A"], flagName := "", fieldName := "F", fieldPath := [0],
         fieldType := .stringT, defValue := some "d", separator := ",", required := false }]
      (.structV [.str "old"]) = .ok (.structV [.str "old"]) ∧
    readEnvVars []
      [{ envList := ["A"], flagName := "", fieldName := "F", fieldPath := [0],
         fieldType := .stringT, defValue := none, separator := ",", required := false }]
      (.structV [.str ""]) = .ok (.structV [.str ""]) :=
  ⟨C5_env_reader.1 [("B", "")] _ (.structV [.str "old"]) ["A"] [] "B" "" (.str "")
      rfl (by decide) rfl (by simp [parseValue]),
   C5_env_reader.2.1 [] _ (.structV [.str ""]) "d" (.str "d") (by decide) (by decide) rfl
      (by simp [parseValue]),
   C5_env_reader.2.2.1 [] _ (.structV [.str "old"]) (by decide) (by decide),
   C5_env_reader.2.2.2 [] _ (.structV [.str ""]) (by decide) rfl⟩

/-- C8 counterexample: an `int64` field whose declared env default `5` was
applied by the environment layer, facing an unchanged flag with declared
default `7`: the claim says the flag's default is applied (final value 7)
because the field still equals the env-supplied default, but the code
compares `reflect.Value.String()` (the `"<int64 Value>"` placeholder for an
integer field) with the textual default, so the branch does not fire and
the field stays 5. -/
theorem C8_counterexample :
    Read intDefaultTy (.structV [.intV 64 0]) none (some [("num", ⟨"7", "7", false⟩)]) [] =
      .ok (.structV [.intV 64 5]) ∧
    Read intDefaultTy (.structV [.intV 64 0]) none (some [("num", ⟨"7", "7", false⟩)]) [] ≠
      .ok (.structV [.intV 64 7]) := by
  have h : Read intDefaultTy (.structV [.intV 64 0]) none
      (some [("num", ⟨"7", "7", false⟩)]) [] = .ok (.structV [.intV 64 5]) := by
    simp +decide [Read, readStructMetadata, bfsMetadata, processFields, mkMeta, unwrapPtr,
      intDefaultTy, GoType.kindIsStruct, readEnvVars, firstEnvValue, lookupEnv,
      isFieldValueZero, getField, setField, isZero, parseValue, goParseInt, splitBasePfx,
      digitsVal, digitVal, goSplit, goSplitAux, startsWithList, parseFlags, lookupFlag,
      valueString, checkRequired]
  refine ⟨h, ?_⟩
  rw [h]
  simp

/-- C8 amended: the flag reader applies a changed flag's value for fields
of every supported kind; an unchanged flag's non-empty declared default is
applied when the field is zero, or when the *string representation* of the
field (`reflect.Value.String()`) equals the declared env default — a
comparison that can match for string-kind fields but compares the constant
`"<int64 Value>"`-style placeholder for other kinds, so for a non-string
field that holds the env-supplied default the flag default is not applied
and the field is left unchanged. -/
theorem C8_flag_reader :
    (∀ (flags : List (String × GoFlag)) (m : structMeta) (cfg : GoValue) (fl : GoFlag)
        (w : GoValue),
      m.flagName ≠ "" →
      lookupFlag flags m.flagName = some fl →
      fl.changed = true →
      parseValue m.fieldType fl.value m.separator = .ok w →
      parseFlags flags [m] cfg = .ok (setField cfg m.fieldPath w)) ∧
    (∀ (flags : List (String × GoFlag)) (m : structMeta) (cfg : GoValue) (fl : GoFlag)
        (w : GoValue),
      m.flagName ≠ "" →
      lookupFlag flags m.flagName = some fl →
      fl.changed = false →
      fl.defValue ≠ "" →
      isFieldValueZero cfg m = true →
      parseValue m.fieldType fl.defValue m.separator = .ok w →
      parseFlags flags [m] cfg = .ok (setField cfg m.fieldPath w)) ∧
    (∀ (flags : List (String × GoFlag)) (m : structMeta) (cfg : GoValue) (fl : GoFlag)
        (d : String) (w : GoValue),
      m.flagName ≠ "" →
      lookupFlag flags m.flagName = some fl →
      fl.changed = false →
      fl.defValue ≠ "" →
      m.defValue = some d →
      valueString (getField cfg m.fieldPath) = d →
      parseValue m.fieldType fl.defValue m.separator = .ok w →
      parseFlags flags [m] cfg = .ok (setField cfg m.fieldPath w)) ∧
    (∀ (flags : List (String × GoFlag)) (m : structMeta) (cfg : GoValue) (fl : GoFlag)
        (d : String) (bits : Nat) (k : Int),
      m.flagName ≠ "" →
      lookupFlag flags m.flagName = some fl →
      fl.changed = false →
      getField cfg m.fieldPath = .intV bits k →
      k ≠ 0 →
      m.defValue = some d →
      d ≠ "<int" ++ toString bits ++ " Value>" →
      parseFlags flags [m] cfg = .ok cfg) := by
  refine ⟨?_, ?_, ?_, ?_⟩
  · intro flags m cfg fl w hname hlk hch hparse
    simp [parseFlags, hname, hlk, hch, hparse]
  · intro flags m cfg fl w hname hlk hch hdv hzero hparse
    simp [parseFlags, hname, hlk, hch, hdv, hzero, hparse]
  · intro flags m cfg fl d w hname hlk hch hdv hdef hmatch hparse
    simp [parseFlags, hname, hlk, hch, hdv, hdef, hmatch, hparse]
  · intro flags m cfg fl d bits k hname hlk hch hfield hk hdef hne
    have hzero : isFieldValueZero cfg m = false := by
      simp [isFieldValueZero, hfield, isZero, hk]
    have hmatch : valueString (getField cfg m.fieldPath) ≠ d := by
      rw [hfield]
      simpa [valueString] using hne.symm
    simp [parseFlags, hname, hlk, hch, hzero, hdef, hmatch]

/-- C8 amended witness: the changed-flag, zero-field, string-match and
non-string conjuncts applied at concrete descriptors; the last one shows an
`int64` field holding the env-supplied default `5` left unchanged by an
unchanged flag with declared default `7`. -/
theorem C8_flag_reader_witness :
    parseFlags [("f", ⟨"v", "", true⟩)]
      [{ envList := [], flagName := "f", fieldName := "F", fieldPath := [0],
         fieldType := .stringT, defValue := none, separator := ",", required := false }]
      (.structV [.str ""]) = .ok (setField (.structV [.str ""]) [0] (.str "v")) ∧
    parseFlags [("f", ⟨"", "fd", false⟩)]
      [{ envList := [], flagName := "f", fieldName := "F", fieldPath := [0],
         fieldType := .stringT, defValue := none, separator := ",", required := false }]
      (.structV [.str ""]) = .ok (setField (.structV [.str ""]) [0] (.str "fd")) ∧
    parseFlags [("f", ⟨"", "fd", false⟩)]
      [{ envList := [], flagName := "f", fieldName := "F", fieldPath := [0],
         fieldType := .stringT, defValue := some "5", separator := ",", required := false }]
      (.structV [.str "5"]) = .ok (setField (.structV [.str "5"]) [0] (.str "fd")) ∧
    parseFlags [("num", ⟨"7", "7", false⟩)]
      [{ envList := [], flagName := "num", fieldName := "Num", fieldPath := [0],
         fieldType := .intT 64, defValue := some "5", separator := ",", required := false }]
      (.structV [.intV 64 5]) = .ok (.structV [.intV 64 5]) :=
  ⟨C8_flag_reader.1 [("f", ⟨"v", "", true⟩)] _ (.structV [.str ""]) ⟨"v", "", true⟩ (.str "v")
      (by decide) rfl rfl (by simp [parseValue]),
   C8_flag_reader.2.1 [("f", ⟨"", "fd", false⟩)] _ (.structV [.str ""]) ⟨"", "fd", false⟩
      (.str "fd") (by decide) rfl rfl (by decide) (by decide) (by simp [parseValue]),
   C8_flag_reader.2.2.1 [("f", ⟨"", "fd", false⟩)] _ (.structV [.str "5"]) ⟨"", "fd", false⟩
      "5" (.str "fd") (by decide) rfl rfl (by decide) rfl (by decide) (by simp [parseValue]),
   C8_flag_reader.2.2.2 [("num", ⟨"7", "7", false⟩)] _ (.structV [.intV 64 5])
      ⟨"7", "7", false⟩ "5" 64 5 (by decide) rfl rfl rfl (by decide) rfl (by decide)⟩

/-- Metadata extraction on a one-field struct with a non-struct field:
exactly the one descriptor built by `mkMeta`. -/
theorem readStructMetadata_oneField (name : String) (tag : FieldTag) (ty : GoType)
    (h : ty.kindIsStruct = false) :
    readStructMetadata (oneFieldTy name tag ty) = .ok [mkMeta [] "" 0 name tag ty] := by
  simp [readStructMetadata, oneFieldTy, bfsMetadata, unwrapPtr, processFields, h]

/-- The descriptor of the precedence-scenario field. -/
theorem mkMeta_precTag (d : String) (name : String) (ty : GoType) :
    mkMeta [] "" 0 name (precTag d) ty =
      { envList := ["NAME"], flagName := "conf", fieldName := name, fieldPath := [0],
        fieldType := ty, defValue := some d, separator := ",", required := false } := rfl

/-- C1: precedence of the layers on a single field (of any non-struct type
`ty`, with raw file/env/flag/default values that coerce to `vF`, `vE`,
`vL`, `vD`): with the file layer writing `vF`, the env variable set to `e`
and a changed flag carrying `l`, the final value is `vL`; without the flag
source it is `vE`; with only the file layer (and a non-zero `vF`) it is
`vF`; with no source at all the declared env default is applied. -/
theorem C1_precedence (ty : GoType) (name : String) (d e l ldef : String)
    (vF vE vL vD v0 : GoValue)
    (hty : ty.kindIsStruct = false)
    (hE : parseValue ty e "," = .ok vE)
    (hL : parseValue ty l "," = .ok vL)
    (hD : parseValue ty d "," = .ok vD)
    (hvF : isZero vF = false)
    (hv0 : isZero v0 = true) :
    (Read (oneFieldTy name (precTag d) ty) (.structV [v0])
        (some (fun c => .ok (setField c [0] vF)))
        (some [("conf", ⟨l, ldef, true⟩)]) [("NAME", e)] = .ok (.structV [vL])) ∧
    (Read (oneFieldTy name (precTag d) ty) (.structV [v0])
        (some (fun c => .ok (setField c [0] vF)))
        none [("NAME", e)] = .ok (.structV [vE])) ∧
    (Read (oneFieldTy name (precTag d) ty) (.structV [v0])
        (some (fun c => .ok (setField c [0] vF)))
        none [] = .ok (.structV [vF])) ∧
    (Read (oneFieldTy name (precTag d) ty) (.structV [v0]) none none [] =
      .ok (.structV [vD])) := by
  have hmeta := readStructMetadata_oneField name (precTag d) ty hty
  refine ⟨?_, ?_, ?_, ?_⟩ <;>
    simp +decide [Read, hmeta, mkMeta_precTag, readEnvVars, parseFlags, checkRequired,
      firstEnvValue, lookupEnv, lookupFlag, isFieldValueZero, getField, setField, hE, hL, hD,
      hvF, hv0]

/-- C1 witness: the precedence law applied at a string field with file
value `fv`, env value `ev`, flag value `lv` and default `dv`. -/
theorem C1_precedence_witness :
    (Read (oneFieldTy "F" (precTag "dv") .stringT) (.structV [.str ""])
        (some (fun c => .ok (setField c [0] (.str "fv"))))
        (some [("conf", ⟨"lv", "", true⟩)]) [("NAME", "ev")] = .ok (.structV [.str "lv"])) ∧
    (Read (oneFieldTy "F" (precTag "dv") .stringT) (.structV [.str ""])
        (some (fun c => .ok (setField c [0] (.str "fv"))))
        none [("NAME", "ev")] = .ok (.structV [.str "ev"])) ∧
    (Read (oneFieldTy "F" (precTag "dv") .stringT) (.structV [.str ""])
        (some (fun c => .ok (setField c [0] (.str "fv"))))
        none [] = .ok (.structV [.str "fv"])) ∧
    (Read (oneFieldTy "F" (precTag "dv") .stringT) (.structV [.str ""]) none none [] =
      .ok (.structV [.str "dv"])) :=
  C1_precedence .stringT "F" "dv" "ev" "lv" "" (.str "fv") (.str "ev") (.str "lv")
    (.str "dv") (.str "") rfl (by simp [parseValue]) (by simp [parseValue])
    (by simp [parseValue]) (by decide) (by decide)

/-- C2: the required check runs once, after all layers: a required field
left zero by every layer fails `Read` with the required-field error naming
the field; the declared default alone satisfies it; a field that is still
zero after the file and env layers but receives a changed flag's value
passes (transient zeroness is not flagged); a value from the env layer
passes as well. -/
theorem C2_required (ty : GoType) (name : String) (v0 : GoValue)
    (hty : ty.kindIsStruct = false)
    (hv0 : isZero v0 = true) :
    (Read (oneFieldTy name { env := some "NAME", envRequired := true } ty)
        (.structV [v0]) none none [] = .error (.requiredField name)) ∧
    (∀ (d : String) (vD : GoValue), parseValue ty d "," = .ok vD → isZero vD = false →
      Read (oneFieldTy name { env := some "NAME", envDefault := some d, envRequired := true } ty)
        (.structV [v0]) none none [] = .ok (.structV [vD])) ∧
    (∀ (l ldef : String) (vL : GoValue), parseValue ty l "," = .ok vL → isZero vL = false →
      Read (oneFieldTy name { env := some "NAME", flagTag := some "ff", envRequired := true } ty)
        (.structV [v0]) none (some [("ff", ⟨l, ldef, true⟩)]) [] = .ok (.structV [vL])) ∧
    (∀ (e : String) (vE : GoValue), parseValue ty e "," = .ok vE → isZero vE = false →
      Read (oneFieldTy name { env := some "NAME", envRequired := true } ty)
        (.structV [v0]) none none [("NAME", e)] = .ok (.structV [vE])) := by
  refine ⟨?_, ?_, ?_, ?_⟩
  · have hmeta := readStructMetadata_oneField name { env := some "NAME", envRequired := true }
      ty hty
    simp +decide [Read, hmeta, mkMeta, readEnvVars, checkRequired, firstEnvValue, lookupEnv,
      isFieldValueZero, getField, setField, hv0]
  · intro d vD hD hvD
    have hmeta := readStructMetadata_oneField name
      { env := some "NAME", envDefault := some d, envRequired := true } ty hty
    simp +decide [Read, hmeta, mkMeta, readEnvVars, checkRequired, firstEnvValue, lookupEnv,
      isFieldValueZero, getField, setField, hv0, hD, hvD]
  · intro l ldef vL hL hvL
    have hmeta := readStructMetadata_oneField name
      { env := some "NAME", flagTag := some "ff", envRequired := true } ty hty
    simp +decide [Read, hmeta, mkMeta, readEnvVars, parseFlags, checkRequired, firstEnvValue,
      lookupEnv, lookupFlag, isFieldValueZero, getField, setField, hv0, hL, hvL]
  · intro e vE hE hvE
    have hmeta := readStructMetadata_oneField name { env := some "NAME", envRequired := true }
      ty hty
    simp +decide [Read, hmeta, mkMeta, readEnvVars, checkRequired, firstEnvValue, lookupEnv,
      isFieldValueZero, getField, setField, hv0, hE, hvE]

/-- C2 witness: the four required-law conjuncts at a string field. -/
theorem C2_required_witness :
    (Read (oneFieldTy "Fld" { env := some "NAME", envRequired := true } .stringT)
        (.structV [.str ""]) none none [] = .error (.requiredField "Fld")) ∧
    (Read (oneFieldTy "Fld" { env := some "NAME", envDefault := some "dv", envRequired := true }
        .stringT) (.structV [.str ""]) none none [] = .ok (.structV [.str "dv"])) ∧
    (Read (oneFieldTy "Fld" { env := some "NAME", flagTag := some "ff", envRequired := true }
        .stringT) (.structV [.str ""]) none (some [("ff", ⟨"lv", "", true⟩)]) [] =
      .ok (.structV [.str "lv"])) ∧
    (Read (oneFieldTy "Fld" { env := some "NAME", envRequired := true } .stringT)
        (.structV [.str ""]) none none [("NAME", "ev")] = .ok (.structV [.str "ev"])) := by
  have h := C2_required .stringT "Fld" (.str "") rfl (by decide)
  exact ⟨h.1,
    h.2.1 "dv" (.str "dv") (by simp [parseValue]) (by decide),
    h.2.2.1 "lv" "" (.str "lv") (by simp [parseValue]) (by decide),
    h.2.2.2 "ev" (.str "ev") (by simp [parseValue]) (by decide)⟩

/-- The check `kindIsStruct` on a literal struct type. -/
theorem kindIsStruct_structT (fs : List GoField) :
    (GoType.structT fs).kindIsStruct = true := rfl

/-- C3: effective environment names are the plain concatenation of the
ancestor structures' prefix tags, outer-to-inner, followed by each declared
env name (no separator inserted): in the three-level shape with prefixes
`p1` and `p2`, every name `n` declared on the leaf resolves against
`p1 ++ p2 ++ n`, for arbitrary prefix and name strings. -/
theorem C3_env_prefix_concat (p1 p2 envName : String) (ty : GoType)
    (hty : ty.kindIsStruct = false) (hne : envName ≠ "") :
    (readStructMetadata (nested3Ty p1 p2 envName ty)).map
        (fun ms => ms.map (fun m => (m.fieldName, m.envList))) =
      .ok [("Outer", []), ("Inner", []),
        ("Leaf", (goSplit envName ",").map (fun n => p1 ++ p2 ++ n))] := by
  by_cases hp : p1 ++ p2 = ""
  · simp +decide [readStructMetadata, nested3Ty, bfsMetadata, unwrapPtr, processFields,
      mkMeta, kindIsStruct_structT, hty, hne, hp, String.append_assoc, Except.map]
  · simp +decide [readStructMetadata, nested3Ty, bfsMetadata, unwrapPtr, processFields,
      mkMeta, kindIsStruct_structT, hty, hne, hp, String.append_assoc, Except.map]

/-- C3 witness: the spec's example, `HOST` under prefixes `READONLY_` and
`DB_`, resolves against `READONLY_DB_HOST`. -/
theorem C3_env_prefix_concat_witness :
    (readStructMetadata (nested3Ty "READONLY_" "DB_" "HOST" .stringT)).map
        (fun ms => ms.map (fun m => (m.fieldName, m.envList))) =
      .ok [("Outer", []), ("Inner", []), ("Leaf", ["READONLY_DB_HOST"])] := by
  have h := C3_env_prefix_concat "READONLY_" "DB_" "HOST" .stringT rfl (by decide)
  rw [h]
  rfl

/-- C4 counterexample: on a struct whose first field `Sub` is itself a
settable nested struct (with leaf `X`) next to leaf `Y`, the extractor
records three descriptors — one of them for the struct-kind field `Sub`
itself — not one per leaf field only: the enqueue of a nested structure
falls through to the settable check and the field is recorded as well. -/
theorem C4_counterexample :
    (readStructMetadata nestedPairTy).map
        (fun ms => ms.map (fun m => (m.fieldName, m.fieldType.kindIsStruct))) =
      .ok [("Sub", true), ("Y", false), ("X", false)] ∧
    (readStructMetadata nestedPairTy).map (fun ms => ms.length) = .ok 3 := by
  constructor <;>
    simp [readStructMetadata, nestedPairTy, bfsMetadata, unwrapPtr, processFields, mkMeta,
      GoType.kindIsStruct, Except.map]

/-- Paths inside `childPaths` are non-empty. -/
theorem mem_settablePathsFields :
    ∀ (fs : List GoField) (i : Nat) (p : List Nat), p ∈ settablePathsFields fs i →
      ∃ j t, p = j :: t ∧ i ≤ j
  | [], i, p => by simp [settablePathsFields]
  | .mk name tag s ty :: fs, i, p => by
    intro hp
    rw [settablePathsFields] at hp
    rcases List.mem_append.mp hp with hp12 | h3
    · rcases List.mem_append.mp hp12 with h1 | h2
      · cases s with
        | false => simp at h1
        | true =>
          simp at h1
          exact ⟨i, [], h1, le_refl i⟩
      · simp only [List.mem_map] at h2
        obtain ⟨q, _, hq⟩ := h2
        exact ⟨i, q, hq.symm, le_refl i⟩
    · obtain ⟨j, t, he, hj⟩ := mem_settablePathsFields fs (i + 1) p h3
      exact ⟨j, t, he, by omega⟩

/-- A path inside a field's `childPaths` is itself non-empty. -/
theorem mem_childPaths_ne_nil (ty : GoType) (q : List Nat) (h : q ∈ childPaths ty) :
    q ≠ [] := by
  cases ty with
  | structT gs =>
    rw [childPaths] at h
    obtain ⟨j, t, he, _⟩ := mem_settablePathsFields gs 0 q h
    simp [he]
  | stringT => simp [childPaths] at h
  | boolT => simp [childPaths] at h
  | intT b => simp [childPaths] at h
  | uintT b => simp [childPaths] at h
  | sliceT e => simp [childPaths] at h
  | mapT k v => simp [childPaths] at h
  | ptrT e => simp [childPaths] at h

mutual
/-- The settable-field paths of a field list are pairwise distinct. -/
theorem settablePathsFields_nodup :
    ∀ (fs : List GoField) (i : Nat), (settablePathsFields fs i).Nodup
  | [], i => by simp [settablePathsFields]
  | .mk name tag s ty :: fs, i => by
    rw [settablePathsFields]
    have hrest : (settablePathsFields fs (i + 1)).Nodup := settablePathsFields_nodup fs (i + 1)
    have hhead := mem_settablePathsFields fs (i + 1)
    rw [List.append_assoc, List.nodup_append]
    refine ⟨?_, ?_, ?_⟩
    · cases s <;> simp
    · rw [List.nodup_append]
      refine ⟨(childPaths_nodup ty).map List.cons_injective, hrest, ?_⟩
      · intro p hpB hpC
        simp only [List.mem_map] at hpB
        obtain ⟨q, hq, he⟩ := hpB
        obtain ⟨j, t, hqt, hj⟩ := hhead p hpC
        rw [← he] at hqt
        injection hqt with h1 h2
        omega
    · intro p hpA hpBC
      cases s with
      | false => simp at hpA
      | true =>
        simp at hpA
        subst hpA
        rcases List.mem_append.mp hpBC with hpB | hpC
        · simp only [List.mem_map] at hpB
          obtain ⟨q, hq, he⟩ := hpB
          have hne := mem_childPaths_ne_nil ty q hq
          injection he with h1 h2
          exact hne h2
        · obtain ⟨j, t, he, hj⟩ := hhead _ hpC
          injection he with h1 h2
          omega
termination_by fs _ => tsizeFields fs
decreasing_by
  all_goals simp [tsizeFields, tsizeField, tsize]
  all_goals omega

/-- The paths inside a field's type are pairwise distinct. -/
theorem childPaths_nodup : ∀ (ty : GoType), (childPaths ty).Nodup
  | .structT gs => by
    rw [childPaths]
    exact settablePathsFields_nodup gs 0
  | .stringT => by simp [childPaths]
  | .boolT => by simp [childPaths]
  | .intT b => by simp [childPaths]
  | .uintT b => by simp [childPaths]
  | .sliceT e => by simp [childPaths]
  | .mapT k v => by simp [childPaths]
  | .ptrT e => by simp [childPaths]
termination_by ty => tsize ty
decreasing_by
  all_goals simp [tsizeFields, tsizeField, tsize]
end

/-- The metas recorded for a field list, projected to field paths. -/
theorem processFields_fst_cons (path : List Nat) (pfx : String) (i : Nat)
    (name : String) (tag : FieldTag) (s : Bool) (ty : GoType) (fs : List GoField) :
    (processFields path pfx i (.mk name tag s ty :: fs)).1 =
      (if s then [mkMeta path pfx i name tag ty] else []) ++
        (processFields path pfx (i + 1) fs).1 := by
  rw [processFields]
  cases s <;> simp

/-- The children enqueued for a field list. -/
theorem processFields_snd_cons (path : List Nat) (pfx : String) (i : Nat)
    (name : String) (tag : FieldTag) (s : Bool) (ty : GoType) (fs : List GoField) :
    (processFields path pfx i (.mk name tag s ty :: fs)).2 =
      (if ty.kindIsStruct then [⟨path ++ [i], pfx ++ (tag.envPfx).getD "", ty⟩] else []) ++
        (processFields path pfx (i + 1) fs).2 := by
  rw [processFields]
  cases h : ty.kindIsStruct <;> simp [h]

/-- The path recorded in a descriptor. -/
theorem mkMeta_fieldPath (path : List Nat) (pfx : String) (i : Nat) (name : String)
    (tag : FieldTag) (ty : GoType) :
    (mkMeta path pfx i name tag ty).fieldPath = path ++ [i] := rfl

/-- The contribution of an enqueued child node to the spec paths. -/
theorem nodeSpec_node (path : List Nat) (i : Nat) (pfx : String) (ty : GoType) :
    nodeSpec ⟨path ++ [i], pfx, ty⟩ =
      (childPaths (unwrapPtr ty)).map (fun p => path ++ i :: p) := by
  simp [nodeSpec, settablePaths, List.append_assoc]

/-- A non-struct kind contributes no child paths. -/
theorem childPaths_of_not_struct {ty : GoType} (h : ty.kindIsStruct = false) :
    childPaths ty = [] := by
  cases ty <;> simp_all [GoType.kindIsStruct, childPaths]

/-- Permutation juggling for one field block: head descriptors, child
contribution and the rest. -/
theorem perm_block {α : Type} (A B C P1 P2 : List α) (h : (P1 ++ P2).Perm C) :
    ((A ++ P1) ++ (B ++ P2)).Perm ((A ++ B) ++ C) := by
  rw [List.append_assoc A P1 (B ++ P2), List.append_assoc A B C]
  apply List.Perm.append_left
  exact (List.perm_append_comm_assoc P1 B P2).trans (List.Perm.append_left B h)

/-- The metas and children produced for a struct's fields carry, between
them, exactly the settable-field paths below that struct (as a
permutation). -/
theorem processFields_spec_perm (path : List Nat) (pfx : String) :
    ∀ (fs : List GoField) (i : Nat),
      (((processFields path pfx i fs).1.map structMeta.fieldPath) ++
        ((processFields path pfx i fs).2.map nodeSpec).flatten).Perm
        ((settablePathsFields fs i).map (fun p => path ++ p))
  | [], i => by simp [processFields, settablePathsFields]
  | .mk name tag s ty :: fs, i => by
    have ih := processFields_spec_perm path pfx fs (i + 1)
    rw [processFields_fst_cons, processFields_snd_cons, settablePathsFields]
    cases hk : ty.kindIsStruct with
    | false =>
      have hcp : childPaths ty = [] := childPaths_of_not_struct hk
      cases s <;>
        simp [mkMeta_fieldPath, hcp, List.append_assoc] <;>
        first
          | exact ih
          | exact List.Perm.cons _ ih
    | true =>
      have hcp : childPaths (unwrapPtr ty) = childPaths ty := by
        cases ty <;> simp_all [GoType.kindIsStruct, unwrapPtr]
      cases s <;>
        simp [mkMeta_fieldPath, nodeSpec_node, hcp, List.map_map, Function.comp,
          List.append_assoc] <;>
        first
          | exact (List.perm_append_comm_assoc _ _ _).trans (List.Perm.append_left _ ih)
          | exact List.Perm.cons _
              ((List.perm_append_comm_assoc _ _ _).trans (List.Perm.append_left _ ih))
          | exact ih
          | exact List.Perm.cons _ ih

/-- The queue loop produces, over a whole run, exactly the settable-field
paths contributed by the queued nodes (as a permutation). -/
theorem bfsMetadata_perm (q : List CfgNode) (ms : List structMeta)
    (h : bfsMetadata q = .ok ms) :
    (ms.map structMeta.fieldPath).Perm ((q.map nodeSpec).flatten) := by
  match q with
  | [] =>
    rw [bfsMetadata] at h
    injection h with h2
    subst h2
    simp
  | n :: rest =>
    rw [bfsMetadata] at h
    split at h
    case h_2 t => exact absurd h (by simp)
    case h_1 fs hu =>
      cases hb : bfsMetadata (rest ++ (processFields n.path n.pfx 0 fs).2) with
      | error e =>
        simp only [hb] at h
        exact (Except.noConfusion h)
      | ok more =>
        simp only [hb] at h
        injection h with h2
        have ih := bfsMetadata_perm (rest ++ (processFields n.path n.pfx 0 fs).2) more hb
        simp only [List.map_append, List.flatten_append] at ih
        have hproc := processFields_spec_perm n.path n.pfx fs 0
        have hnode : (settablePathsFields fs 0).map (fun p => n.path ++ p) = nodeSpec n := by
          simp [nodeSpec, settablePaths, hu, childPaths]
        subst h2
        simp only [List.map_append, List.map_cons, List.flatten_cons]
        refine List.Perm.trans (List.Perm.append_left _ ih) ?_
        refine List.Perm.trans (List.Perm.append_left _ List.perm_append_comm) ?_
        rw [← List.append_assoc]
        exact List.Perm.append_right _ (hnode ▸ hproc)
termination_by queueSize q
decreasing_by
  have hlt : ∀ (fs : List GoField), unwrapPtr n.ty = GoType.structT fs →
      queueSize (rest ++ (processFields n.path n.pfx 0 fs).2) < queueSize (n :: rest) := by
    intro fs hu
    have h1 := processFields_children_size n.path n.pfx fs 0
    have h2 : tsize (GoType.structT fs) ≤ tsize n.ty := by
      have := tsize_unwrapPtr_le n.ty
      rw [hu] at this
      exact this
    have h3 := queueSize_append rest (processFields n.path n.pfx 0 fs).2
    simp only [queueSize, List.map_cons, List.sum_cons] at *
    omega
  apply hlt
  assumption

/-- The settable-field paths of a root type are pairwise distinct. -/
theorem settablePaths_nodup (t : GoType) : (settablePaths t).Nodup := by
  rw [settablePaths]
  exact childPaths_nodup _

/-- C4 amended: metadata extraction produces exactly one FieldDescriptor
per settable field — including fields that are themselves nested
structures, which are both descended into and recorded (the original
claim's "never recorded" fails, see the counterexample): the recorded
field paths are a duplicate-free permutation of the settable-field paths
reachable by descending through struct-kind fields. -/
theorem C4_extractor_descriptors (t : GoType) (ms : List structMeta)
    (h : readStructMetadata t = .ok ms) :
    (ms.map structMeta.fieldPath).Perm (settablePaths t) ∧
    (ms.map structMeta.fieldPath).Nodup := by
  have hp := bfsMetadata_perm [⟨[], "", t⟩] ms h
  simp only [List.map_cons, List.map_nil, List.flatten_cons, List.flatten_nil,
    List.append_nil, nodeSpec, List.nil_append, List.map_id'] at hp
  exact ⟨hp, hp.nodup_iff.mpr (settablePaths_nodup t)⟩

/-- C4 amended witness: the permutation and distinctness applied to the
concrete nested shape (descriptors at paths `[0]`, `[1]`, `[0,0]` against
spec paths `[[0],[0,0],[1]]`). -/
theorem C4_extractor_descriptors_witness :
    (([mkMeta [] "" 0 "Sub" {} (.structT [.mk "X" {} true .stringT]),
       mkMeta [] "" 1 "Y" {} .stringT,
       mkMeta [0] "" 0 "X" {} .stringT].map structMeta.fieldPath).Perm
      (settablePaths nestedPairTy)) ∧
    ([mkMeta [] "" 0 "Sub" {} (.structT [.mk "X" {} true .stringT]),
      mkMeta [] "" 1 "Y" {} .stringT,
      mkMeta [0] "" 0 "X" {} .stringT].map structMeta.fieldPath).Nodup :=
  C4_extractor_descriptors nestedPairTy _
    (by simp [readStructMetadata, nestedPairTy, bfsMetadata, unwrapPtr, processFields,
      GoType.kindIsStruct])

end Libstandard
